import Mathlib

/-!
Verification of the akkorokamui Kraken HTTP client library.

This file is a shallow embedding, in Lean 4, of the parts of the library
that carry the behavioural claims under scrutiny:

* the request signer `Client::api_sign` (src/client.rs), together with the
  cryptographic primitives it composes (SHA-256, SHA-512, HMAC-SHA-512,
  Base64) modelled bit-exactly after FIPS 180-4 / RFC 2104 / RFC 4648, the
  algorithms implemented by the `sha2`, `hmac` and `base64` crates the
  source calls into;
* credentials loading `Credentials::read` (src/auth.rs);
* the request builder `ApiBuilder` (src/api/builder.rs) and POST body
  `Body` (src/api/body.rs);
* request dispatch `Client::post` / `Client::get` (src/client.rs);
* the response envelope `Response<T>` (src/api/mod.rs);
* the asset table `Asset` (src/assets.rs).

Machine integers are modelled as `Nat` with explicit reductions `% 2 ^ w`
where the source relies on fixed-width wrap-around.  Byte strings are
`List Nat` (each element a byte value).  Fallible operations return
`Except Error` mirroring the crate's `Result<T>`; `Option` models Rust's
`Option`.  I/O boundaries (the file read in `Credentials::read`, the wall
clock read in `Client::nonce`, the network send) are modelled by passing
the externally supplied datum (file content, clock reading) as an explicit
argument.
-/

namespace Kraken

/-! ## Bytes and UTF-8 -/

/-- UTF-8 encoding of a single scalar value, as byte values. -/
def utf8Bytes (c : Char) : List Nat :=
  let n := c.toNat
  if n < 0x80 then [n]
  else if n < 0x800 then [0xc0 + n / 64, 0x80 + n % 64]
  else if n < 0x10000 then
    [0xe0 + n / 4096, 0x80 + (n / 64) % 64, 0x80 + n % 64]
  else
    [0xf0 + n / 262144, 0x80 + (n / 4096) % 64, 0x80 + (n / 64) % 64,
     0x80 + n % 64]

/-- The UTF-8 bytes of a string (what `str::as_bytes` / `String::into_bytes`
yield in the source). -/
def strBytes (s : String) : List Nat :=
  s.data.flatMap utf8Bytes

/-- Validity of one character of an HTTP header value, per
`http::HeaderValue::from_str`: every byte of the value must be ≥ 32 and
≠ 127, or be the horizontal tab (9).  `from_str` checks the UTF-8 bytes;
stating the check per character is equivalent, because every byte of a
multi-byte UTF-8 sequence lies in 0x80..=0xf4 and hence always passes the
byte test, while a character below 0x80 is its own single byte. -/
def validHeaderChar (c : Char) : Bool :=
  c.toNat == 9 || (decide (32 ≤ c.toNat) && decide (c.toNat ≠ 127))

/-- `HeaderValue::from_str` succeeds on `s` iff every character is valid. -/
def headerValueValid (s : String) : Bool :=
  s.data.all validHeaderChar

/-! ## Base64 (RFC 4648 standard alphabet, as used by `base64::encode` /
`base64::decode` with the `STANDARD` configuration) -/

/-- The standard Base64 alphabet. -/
def b64Alphabet : List Char :=
  "ABCDEFGHIJKLMNOPQRSTUVWXYZabcdefghijklmnopqrstuvwxyz0123456789+/".data

/-- The alphabet character for a sextet.  Indices ≥ 64 never arise from
byte input; they default to the first alphabet letter. -/
def b64Char (n : Nat) : Char :=
  b64Alphabet.getD n 'A'

/-- Base64 encoding of a byte list, as characters: three input bytes map
to four alphabet characters, a final group of one or two bytes is padded
with `=`. -/
def base64EncodeChars : List Nat → List Char
  | [] => []
  | [b1] =>
    [b64Char ((b1 / 4) % 64), b64Char ((b1 % 4) * 16), '=', '=']
  | [b1, b2] =>
    [b64Char ((b1 / 4) % 64), b64Char (((b1 % 4) * 16 + b2 / 16) % 64),
     b64Char ((b2 % 16) * 4), '=']
  | b1 :: b2 :: b3 :: rest =>
    b64Char ((b1 / 4) % 64) :: b64Char (((b1 % 4) * 16 + b2 / 16) % 64) ::
    b64Char (((b2 % 16) * 4 + b3 / 64) % 64) :: b64Char (b3 % 64) ::
    base64EncodeChars rest

/-- `base64::encode`. -/
def base64Encode (bs : List Nat) : String :=
  String.mk (base64EncodeChars bs)

/-- Value of one Base64 alphabet character, `none` outside the alphabet. -/
def b64DecodeChar (c : Char) : Option Nat :=
  if 'A' ≤ c ∧ c ≤ 'Z' then some (c.toNat - 65)
  else if 'a' ≤ c ∧ c ≤ 'z' then some (c.toNat - 97 + 26)
  else if '0' ≤ c ∧ c ≤ '9' then some (c.toNat - 48 + 52)
  else if c = '+' then some 62
  else if c = '/' then some 63
  else none

/-- Base64 decoding by groups of four characters; the final group may be
`=`-padded or short (the `base64` crate accepts unpadded input), and the
unused trailing bits of the final group must be zero. -/
def b64DecodeGroups : List Char → Option (List Nat)
  | [] => some []
  | [c1, c2] => do
    let a ← b64DecodeChar c1
    let b ← b64DecodeChar c2
    if b % 16 = 0 then some [a * 4 + b / 16] else none
  | [c1, c2, c3] => do
    let a ← b64DecodeChar c1
    let b ← b64DecodeChar c2
    let c ← b64DecodeChar c3
    if c % 4 = 0 then some [a * 4 + b / 16, (b % 16) * 16 + c / 4] else none
  | [c1, c2, '=', '='] => do
    let a ← b64DecodeChar c1
    let b ← b64DecodeChar c2
    if b % 16 = 0 then some [a * 4 + b / 16] else none
  | [c1, c2, c3, '='] => do
    let a ← b64DecodeChar c1
    let b ← b64DecodeChar c2
    let c ← b64DecodeChar c3
    if c % 4 = 0 then some [a * 4 + b / 16, (b % 16) * 16 + c / 4] else none
  | c1 :: c2 :: c3 :: c4 :: rest => do
    let a ← b64DecodeChar c1
    let b ← b64DecodeChar c2
    let c ← b64DecodeChar c3
    let d ← b64DecodeChar c4
    let tail ← b64DecodeGroups rest
    some ((a * 4 + b / 16) :: ((b % 16) * 16 + c / 4) :: ((c % 4) * 64 + d) :: tail)
  | _ => none

/-- `base64::decode`. -/
def base64Decode (s : String) : Option (List Nat) :=
  b64DecodeGroups s.data

/-! ## SHA-2 (FIPS 180-4), the family implemented by the `sha2` crate

The round constants are the fractional parts of the cube roots of the
first primes and the initial hash values the fractional parts of their
square roots; they are computed here from that definition instead of
being transcribed. -/

/-- Trial-division primality test. -/
def isPrimeNat (n : Nat) : Bool :=
  decide (2 ≤ n) &&
    (List.range n).all (fun d => decide (d < 2) || decide (n % d ≠ 0))

/-- The first `n` primes.  The 80th prime is 409, so scanning below 410
suffices for every constant table of SHA-2. -/
def firstPrimes (n : Nat) : List Nat :=
  ((List.range 410).filter isPrimeNat).take n

/-- Binary search for the integer cube root: on entry `lo ^ 3 ≤ n < hi ^ 3`. -/
def cbrtAux (n lo hi : Nat) : Nat :=
  if _h : lo + 1 < hi then
    if ((lo + hi) / 2) * ((lo + hi) / 2) * ((lo + hi) / 2) ≤ n then
      cbrtAux n ((lo + hi) / 2) hi
    else
      cbrtAux n lo ((lo + hi) / 2)
  else lo
termination_by hi - lo
decreasing_by
  all_goals omega

/-- Integer cube root. -/
def natCbrt (n : Nat) : Nat :=
  cbrtAux n 0 (n + 1)

/-- Right rotation of a `w`-bit word. -/
def rotr (w n x : Nat) : Nat :=
  ((x >>> n) ||| (x <<< (w - n))) % 2 ^ w

/-- The large sigma functions: xor of three right rotations. -/
def bigSigma (w r1 r2 r3 x : Nat) : Nat :=
  rotr w r1 x ^^^ rotr w r2 x ^^^ rotr w r3 x

/-- The small sigma functions: xor of two rotations and a right shift. -/
def smallSigma (w r1 r2 sh x : Nat) : Nat :=
  rotr w r1 x ^^^ rotr w r2 x ^^^ (x >>> sh)

/-- The choice function; `g xor (e and (f xor g))` equals the textbook
`(e and f) xor (not e and g)` and avoids complementing a `Nat`. -/
def chFun (e f g : Nat) : Nat :=
  g ^^^ (e &&& (f ^^^ g))

/-- The majority function, in its xor form. -/
def majFun (a b c : Nat) : Nat :=
  (a &&& b) ^^^ (a &&& c) ^^^ (b &&& c)

/-- Split a list into consecutive chunks of `n` elements. -/
def chunksOf (n : Nat) (l : List α) : List (List α) :=
  if h : n = 0 ∨ l.isEmpty = true then []
  else l.take n :: chunksOf n (l.drop n)
termination_by l.length
decreasing_by
  push_neg at h
  rw [List.length_drop]
  have h2 : l ≠ [] := by simpa [List.isEmpty_iff] using h.2
  have := List.length_pos.mpr h2
  omega

/-- Big-endian word value of a byte list. -/
def bytesToWord (bs : List Nat) : Nat :=
  bs.foldl (fun acc b => acc * 256 + b) 0

/-- Big-endian byte rendering of `x` on `nbytes` bytes. -/
def wordToBytes (nbytes x : Nat) : List Nat :=
  (List.range nbytes).map (fun i => (x >>> (8 * (nbytes - 1 - i))) % 256)

/-- Parameters distinguishing SHA-256 from SHA-512: word width `w` (bits),
block size and message-length-field size (bytes), constant tables, and the
rotation/shift amounts of the four sigma functions. -/
structure Sha2Params where
  w : Nat
  blockBytes : Nat
  lenBytes : Nat
  K : List Nat
  H0 : List Nat
  bs0 : Nat × Nat × Nat
  bs1 : Nat × Nat × Nat
  ss0 : Nat × Nat × Nat
  ss1 : Nat × Nat × Nat

/-- Message-schedule extension: append `count` further words, each
computed from the words 2, 7, 15 and 16 places back. -/
def extendW (p : Sha2Params) : Nat → List Nat → List Nat
  | 0, ws => ws
  | Nat.succ count, ws =>
    let len := ws.length
    let nw := (smallSigma p.w p.ss1.1 p.ss1.2.1 p.ss1.2.2 (ws.getD (len - 2) 0)
      + ws.getD (len - 7) 0
      + smallSigma p.w p.ss0.1 p.ss0.2.1 p.ss0.2.2 (ws.getD (len - 15) 0)
      + ws.getD (len - 16) 0) % 2 ^ p.w
    extendW p count (ws ++ [nw])

/-- One compression round on the state `[a, b, c, d, e, f, g, h]` with the
round constant and schedule word `kw`. -/
def compressRound (p : Sha2Params) (st : List Nat) (kw : Nat × Nat) : List Nat :=
  let a := st.getD 0 0
  let b := st.getD 1 0
  let c := st.getD 2 0
  let d := st.getD 3 0
  let e := st.getD 4 0
  let f := st.getD 5 0
  let g := st.getD 6 0
  let h := st.getD 7 0
  let t1 := (h + bigSigma p.w p.bs1.1 p.bs1.2.1 p.bs1.2.2 e + chFun e f g
    + kw.1 + kw.2) % 2 ^ p.w
  let t2 := (bigSigma p.w p.bs0.1 p.bs0.2.1 p.bs0.2.2 a + majFun a b c) % 2 ^ p.w
  [(t1 + t2) % 2 ^ p.w, a, b, c, (d + t1) % 2 ^ p.w, e, f, g]

/-- Compression of one padded block into the chaining value `H`. -/
def compressBlock (p : Sha2Params) (H : List Nat) (block : List Nat) : List Nat :=
  let ws0 := (chunksOf (p.w / 8) block).map bytesToWord
  let W := extendW p (p.K.length - 16) ws0
  let st := (p.K.zip W).foldl (compressRound p) H
  (H.zip st).map (fun xy => (xy.1 + xy.2) % 2 ^ p.w)

/-- Merkle–Damgård padding: a `0x80` byte, zeros, and the big-endian bit
length, filling to a block boundary. -/
def shaPad (p : Sha2Params) (msg : List Nat) : List Nat :=
  let l := msg.length
  let zeros := (p.blockBytes - (l + 1 + p.lenBytes) % p.blockBytes) % p.blockBytes
  msg ++ 0x80 :: (List.replicate zeros 0 ++ wordToBytes p.lenBytes (8 * l))

/-- The SHA-2 hash determined by `p`, bytes to bytes. -/
def sha2 (p : Sha2Params) (msg : List Nat) : List Nat :=
  ((chunksOf p.blockBytes (shaPad p msg)).foldl (compressBlock p) p.H0).flatMap
    (wordToBytes (p.w / 8))

/-- SHA-256 round constants: fractional cube roots of the first 64 primes. -/
def K256 : List Nat :=
  (firstPrimes 64).map (fun q => natCbrt (q * 2 ^ 96) % 2 ^ 32)

/-- SHA-256 initial hash: fractional square roots of the first 8 primes. -/
def H256 : List Nat :=
  (firstPrimes 8).map (fun q => Nat.sqrt (q * 2 ^ 64) % 2 ^ 32)

/-- SHA-512 round constants: fractional cube roots of the first 80 primes. -/
def K512 : List Nat :=
  (firstPrimes 80).map (fun q => natCbrt (q * 2 ^ 192) % 2 ^ 64)

/-- SHA-512 initial hash: fractional square roots of the first 8 primes. -/
def H512 : List Nat :=
  (firstPrimes 8).map (fun q => Nat.sqrt (q * 2 ^ 128) % 2 ^ 64)

/-- FIPS 180-4 parameters of SHA-256. -/
def sha256Params : Sha2Params :=
  ⟨32, 64, 8, K256, H256, (2, 13, 22), (6, 11, 25), (7, 18, 3), (17, 19, 10)⟩

/-- FIPS 180-4 parameters of SHA-512. -/
def sha512Params : Sha2Params :=
  ⟨64, 128, 16, K512, H512, (28, 34, 39), (14, 18, 41), (1, 8, 7), (19, 61, 6)⟩

/-- `Sha256::digest`, bytes to bytes. -/
def sha256 (msg : List Nat) : List Nat :=
  sha2 sha256Params msg

/-- The SHA-512 hash, bytes to bytes. -/
def sha512 (msg : List Nat) : List Nat :=
  sha2 sha512Params msg

/-- HMAC-SHA-512 (RFC 2104): what `Hmac<Sha512>` computes.  The block size
of SHA-512 is 128 bytes; a longer key is first hashed, and the key is then
zero-padded to the block size. -/
def hmacSha512 (key msg : List Nat) : List Nat :=
  let k0 := if 128 < key.length then sha512 key else key
  let k1 := k0 ++ List.replicate (128 - k0.length) 0
  sha512 ((k1.map (fun b => b ^^^ 0x5c)) ++
    sha512 ((k1.map (fun b => b ^^^ 0x36)) ++ msg))

/-- `Hmac::<Sha512>::new_varkey` accepts keys of every length (HMAC has no
invalid key length; the `InvalidKeyLength` arm of `Error` exists for MAC
primitives with a fixed key size), so this predicate is constantly false. -/
def hmacKeyLenInvalid (_k : List Nat) : Bool :=
  false

/-! ## The crate data model (src/error.rs, src/auth.rs, src/api, src/client.rs) -/

deriving instance DecidableEq for Except

/-- The crate error enumeration (src/error.rs). -/
inductive Error where
  | InvalidKey (msg : String)
  | InvalidUserAgent (msg : String)
  | Internal (msg : String)
  | Request (err : String) (status : Option Nat)
  | Unauthorized
deriving DecidableEq

/-- The credential pair (src/auth.rs).  Both fields are `HeaderValue`s in
the source; they are modelled as the underlying strings, validity being
enforced at construction by `Credentials.read`. -/
structure Credentials where
  apiKey : String
  privateKey : String
deriving DecidableEq

/-- The HTTP client (src/client.rs): optional credentials and the
User-Agent header value.  The underlying `reqwest` connection object
carries no behaviour modelled here. -/
structure Client where
  credentials : Option Credentials
  userAgent : String
deriving DecidableEq

/-- The API response envelope (src/api/mod.rs). -/
structure Response (T : Type) where
  error : List String
  result : Option T
  statusCode : Nat

/-- `Response::is_success`: no error message and a 2xx status. -/
def Response.isSuccess (r : Response T) : Bool :=
  r.error.isEmpty && decide (200 ≤ r.statusCode) && decide (r.statusCode < 300)

/-- The API kind (src/api/mod.rs). -/
inductive ApiKind where
  | Public
  | Private
deriving DecidableEq

/-- The API builder (src/api/builder.rs).  The parameter map is a
`HashMap<String, String>` in the source with unspecified iteration order;
it is modelled as an association list.  The extra-headers map carries no
behaviour claimed here and is omitted. -/
structure ApiBuilder where
  kind : ApiKind
  domain : String
  version : String
  path : String
  method : String
  params : List (String × String)
deriving DecidableEq

/-- `ApiBuilder::with`: insert a parameter, replacing any existing value
for the key (`HashMap::insert` semantics; iteration order of the map is
unspecified, so the model may place the new entry first). -/
def ApiBuilder.withParam (b : ApiBuilder) (k v : String) : ApiBuilder :=
  ⟨b.kind, b.domain, b.version, b.path, b.method,
   (k, v) :: b.params.filter (fun kv => kv.1 ≠ k)⟩

/-- `ApiBuilder::uri_path`: `/{version}/{path}/{method}`. -/
def ApiBuilder.uriPath (b : ApiBuilder) : String :=
  "/" ++ b.version ++ "/" ++ b.path ++ "/" ++ b.method

/-- The `key=value&` concatenation underlying `ApiBuilder::params`. -/
def paramsConcat (ps : List (String × String)) : String :=
  ps.foldl (fun acc kv => acc ++ kv.1 ++ "=" ++ kv.2 ++ "&") ""

/-- `ApiBuilder::params`: the pairs joined by `&` (the trailing `&` is
popped). -/
def ApiBuilder.paramsStr (b : ApiBuilder) : String :=
  (paramsConcat b.params).dropRight 1

/-- `ApiBuilder::url`: domain plus URI path, with the parameters as a
query string only for a public API with a non-empty parameter map. -/
def ApiBuilder.url (b : ApiBuilder) : String :=
  b.domain ++ b.uriPath ++
    (if b.kind = ApiKind.Public ∧ ¬b.params.isEmpty = true then
      "?" ++ b.paramsStr
    else "")

/-- The POST request body (src/api/body.rs). -/
structure Body where
  nonce : Nat
  otp : Option String
  params : List (String × String)

/-- `Body::with_params`. -/
def Body.withParams (nonce : Nat) (params : List (String × String)) : Body :=
  ⟨nonce, none, params⟩

/-- The `otp` suffix of the body rendering. -/
def otpStr : Option String → String
  | none => ""
  | some o => "&otp=" ++ o

/-- The `Display` rendering of a `Body`: each parameter as `key=value&`,
then `nonce={nonce}`, then the optional `&otp={otp}`. -/
def Body.toStr (b : Body) : String :=
  paramsConcat b.params ++ ("nonce=" ++ toString b.nonce) ++ otpStr b.otp

/-- Lowest nibble as an uppercase hex digit. -/
def hexDigit (n : Nat) : Char :=
  if n < 10 then Char.ofNat (48 + n) else Char.ofNat (55 + n)

/-- Percent-encoding of one character against the `CONTROLS` set of the
`percent_encoding` crate: the C0 controls (bytes below 32) and 127 are
written `%XX`, everything else passes through.  The crate works on UTF-8
bytes, but no byte of a multi-byte sequence is a control, so the
per-character formulation is equivalent. -/
def percentEncodeChar (c : Char) : String :=
  if c.toNat < 32 ∨ c.toNat = 127 then
    String.mk ['%', hexDigit (c.toNat / 16), hexDigit (c.toNat % 16)]
  else String.singleton c

/-- `utf8_percent_encode(s, CONTROLS)`. -/
def percentEncode (s : String) : String :=
  String.join (s.data.map percentEncodeChar)

/-- `Body::urlencode`. -/
def Body.urlencode (b : Body) : String :=
  percentEncode b.toStr

/-! ## Assets (src/assets.rs) -/

/-- The asset enumeration. -/
inductive Asset where
  | ADA
  | ALGO
  | ATOM
  | BAL
  | BAT
  | BCH
  | COMP
  | CRV
  | DAI
  | DASH
  | DOT
  | EOS
  | FIL
  | FLOW
  | GNO
  | ICX
  | KAVA
  | KNC
  | KSM
  | LINK
  | LSK
  | OMG
  | OXT
  | PAXG
  | QTUM
  | SC
  | SNX
  | STORJ
  | TRX
  | UNI
  | USDC
  | USDT
  | WAVE
  | XETC
  | XETH
  | XLTC
  | XMLN
  | XREP
  | REPV2
  | XXBT
  | XXDG
  | XXLM
  | XXMR
  | XXRP
  | XTZ
  | XZEC
  | YFI
  | ZEC
  | NANO
  | WAVES
  | CHF
  | ZAUD
  | ZCAD
  | ZEUR
  | ZGBP
  | ZJPY
  | ZUSD
  | KFEE
  | Unknown
deriving DecidableEq

/-- The `Display` rendering of an asset: the derived `Debug` name of the
variant, except for the unknown asset. -/
def Asset.display : Asset → String
  | .ADA => "ADA"
  | .ALGO => "ALGO"
  | .ATOM => "ATOM"
  | .BAL => "BAL"
  | .BAT => "BAT"
  | .BCH => "BCH"
  | .COMP => "COMP"
  | .CRV => "CRV"
  | .DAI => "DAI"
  | .DASH => "DASH"
  | .DOT => "DOT"
  | .EOS => "EOS"
  | .FIL => "FIL"
  | .FLOW => "FLOW"
  | .GNO => "GNO"
  | .ICX => "ICX"
  | .KAVA => "KAVA"
  | .KNC => "KNC"
  | .KSM => "KSM"
  | .LINK => "LINK"
  | .LSK => "LSK"
  | .OMG => "OMG"
  | .OXT => "OXT"
  | .PAXG => "PAXG"
  | .QTUM => "QTUM"
  | .SC => "SC"
  | .SNX => "SNX"
  | .STORJ => "STORJ"
  | .TRX => "TRX"
  | .UNI => "UNI"
  | .USDC => "USDC"
  | .USDT => "USDT"
  | .WAVE => "WAVE"
  | .XETC => "XETC"
  | .XETH => "XETH"
  | .XLTC => "XLTC"
  | .XMLN => "XMLN"
  | .XREP => "XREP"
  | .REPV2 => "REPV2"
  | .XXBT => "XXBT"
  | .XXDG => "XXDG"
  | .XXLM => "XXLM"
  | .XXMR => "XXMR"
  | .XXRP => "XXRP"
  | .XTZ => "XTZ"
  | .XZEC => "XZEC"
  | .YFI => "YFI"
  | .ZEC => "ZEC"
  | .NANO => "NANO"
  | .WAVES => "WAVES"
  | .CHF => "CHF"
  | .ZAUD => "ZAUD"
  | .ZCAD => "ZCAD"
  | .ZEUR => "ZEUR"
  | .ZGBP => "ZGBP"
  | .ZJPY => "ZJPY"
  | .ZUSD => "ZUSD"
  | .KFEE => "KFEE"
  | .Unknown => "<unknown asset>"

/-- `Asset::pair`: the pair name, `format!` of the two `Display` renderings. -/
def Asset.pair (a other : Asset) : String :=
  a.display ++ other.display

/-- `Asset::is_fiat`. -/
def Asset.is_fiat : Asset → Bool
  | .ZAUD | .ZCAD | .ZEUR | .ZGBP | .ZJPY | .ZUSD | .CHF => true
  | _ => false

/-- `Asset::is_kraken_credit`. -/
def Asset.is_kraken_credit : Asset → Bool
  | .KFEE => true
  | _ => false

/-- `Asset::is_unknown`. -/
def Asset.is_unknown : Asset → Bool
  | .Unknown => true
  | _ => false

/-- `Asset::is_crypto`: everything that is not fiat, fee credit or unknown. -/
def Asset.is_crypto (a : Asset) : Bool :=
  !(a.is_fiat || a.is_kraken_credit || a.is_unknown)

/-! ## Credentials loading (src/auth.rs) -/

/-- Strip one trailing carriage return, as `str::lines` does per line. -/
def stripCR (cs : List Char) : List Char :=
  if cs.getLast? = some '\r' then cs.dropLast else cs

/-- Worker for `str::lines`: split at each newline; a trailing newline
terminates the last line instead of opening an empty one. -/
def linesGo : List Char → List Char → List (List Char)
  | [], acc => [acc.reverse]
  | c :: rest, acc =>
    if c = '\n' then
      acc.reverse :: (if rest.isEmpty then [] else linesGo rest [])
    else linesGo rest (c :: acc)

/-- `str::lines`: the lines of a string, without terminators. -/
def rustLines (s : String) : List String :=
  if s.data.isEmpty then []
  else (linesGo s.data []).map (fun cs => String.mk (stripCR cs))

/-- `Option::map(HeaderValue::from_str).transpose()` followed by `?` with
`Error::invalid_key`: validate a popped line, if any. -/
def optValidate : Option String → Except Error (Option String)
  | none => Except.ok none
  | some s =>
    if headerValueValid s then Except.ok (some s)
    else Except.error (Error.InvalidKey "failed to parse header value")

/-- `Credentials::read`, on the content of the credentials file (the
`fs::read_to_string` I/O boundary is the caller's): the private key is
popped off the back of the line vector, then the API key; each popped
line must be a valid header value, and both must be present. -/
def Credentials.read (content : String) : Except Error Credentials :=
  let ls := rustLines content
  match optValidate ls.getLast? with
  | Except.error e => Except.error e
  | Except.ok privLine =>
    match optValidate ls.dropLast.getLast? with
    | Except.error e => Except.error e
    | Except.ok apiLine =>
      match apiLine, privLine with
      | some apiKey, some privateKey => Except.ok ⟨apiKey, privateKey⟩
      | _, _ => Except.error (Error.InvalidKey "key not found")

/-- `Credentials::private_key`: the stored private key, Base64-decoded;
a decode failure is an `InvalidKey` error. -/
def Credentials.privateKeyBytes (c : Credentials) : Except Error (List Nat) :=
  match base64Decode c.privateKey with
  | some k => Except.ok k
  | none => Except.error (Error.InvalidKey "base64 decode error")

/-! ## The client (src/client.rs) -/

/-- `Client::nonce` on a wall-clock reading: the milliseconds since the
Unix epoch (a `u128` from `Duration::as_millis`), cast `as u64`, which
truncates modulo `2 ^ 64`.  The clock reading itself is an input: the
source takes it from `SystemTime::now`, which carries no monotonicity
guarantee. -/
def nonceFromClock (nowMillis : Nat) : Nat :=
  nowMillis % 2 ^ 64

/-- A list of nonce (or clock) values never regresses: each element is at
least the one before it. -/
def nonDecreasing : List Nat → Bool
  | a :: b :: rest => decide (a ≤ b) && nonDecreasing (b :: rest)
  | _ => true

/-- `Client::api_sign`: with credentials, decode the private key, hash
the decimal nonce concatenated with the body, and HMAC-sign the URI path
followed by that digest; Base64 of the MAC is the header value.  Without
credentials the signer refuses with `Unauthorized`. -/
def apiSign (cl : Client) (uriPath : String) (nonce : Nat) (body : String) :
    Except Error String :=
  match cl.credentials with
  | some credentials =>
    let shaBody := toString nonce ++ body
    let sha := sha256 (strBytes shaBody)
    match base64Decode credentials.privateKey with
    | none => Except.error (Error.InvalidKey "base64 decode error")
    | some privateKey =>
      if hmacKeyLenInvalid privateKey then
        Except.error (Error.InvalidKey "invalid key length")
      else
        let hmacData := strBytes uriPath ++ sha
        let b64 := base64Encode (hmacSha512 privateKey hmacData)
        if headerValueValid b64 then Except.ok b64
        else Except.error (Error.Internal "failed to parse header value")
  | none => Except.error Error.Unauthorized

/-- An outgoing HTTP request as the client assembles it: target URL, the
two optional authentication headers, and the optional body. -/
structure Request where
  url : String
  apiKeyHeader : Option String
  apiSignHeader : Option String
  body : Option String
deriving DecidableEq

/-- `Client::get`: URL (with query string for a public API), no body, no
authentication headers. -/
def get (_cl : Client) (api : ApiBuilder) : Request :=
  ⟨api.url, none, none, none⟩

/-- `Client::post` on a given nonce (the clock read is the caller's): the
body always carries the URL-encoded parameters and nonce; the API-Key and
API-Sign headers are attached only when credentials are configured — with
no credentials the request is still assembled and sent, unsigned. -/
def post (cl : Client) (api : ApiBuilder) (nonce : Nat) : Except Error Request :=
  let url := api.url
  let uriPath := api.uriPath
  let body := (Body.withParams nonce api.params).urlencode
  match cl.credentials with
  | some credentials =>
    match apiSign cl uriPath nonce body with
    | Except.error e => Except.error e
    | Except.ok sign =>
      Except.ok ⟨url, some credentials.apiKey, some sign, some body⟩
  | none => Except.ok ⟨url, none, none, some body⟩

/-! ## Supporting lemmas -/

/-- Every Base64 alphabet character is a valid header-value character. -/
theorem validHeaderChar_b64Char (n : Nat) : validHeaderChar (b64Char n) = true := by
  by_cases h : n < 64
  · revert h
    revert n
    decide
  · rw [b64Char, List.getD_eq_default]
    · decide
    · rw [show b64Alphabet.length = 64 from rfl]
      omega

/-- The padding character is a valid header-value character. -/
theorem validHeaderChar_pad : validHeaderChar '=' = true := by
  decide

/-- Every character emitted by the Base64 encoder is a valid header-value
character. -/
theorem base64EncodeChars_all_valid (bs : List Nat) :
    (base64EncodeChars bs).all validHeaderChar = true := by
  induction bs using base64EncodeChars.induct with
  | case1 => rfl
  | case2 b1 =>
    simp [base64EncodeChars, validHeaderChar_b64Char, validHeaderChar_pad]
  | case3 b1 b2 =>
    simp [base64EncodeChars, validHeaderChar_b64Char, validHeaderChar_pad]
  | case4 b1 b2 b3 rest ih =>
    simp [base64EncodeChars, validHeaderChar_b64Char, ih]

/-- `HeaderValue::from_str` accepts every Base64 encoder output. -/
theorem headerValueValid_base64Encode (bs : List Nat) :
    headerValueValid (base64Encode bs) = true := by
  rw [headerValueValid, base64Encode]
  exact base64EncodeChars_all_valid bs

/-! ## The claims -/

/-- C1.  For every URI path `p`, nonce `n`, body `b`, and client whose
credentials are configured and whose stored private key Base64-decodes to
the byte string `k`, `api_sign` returns the Base64 encoding of the
HMAC-SHA-512, keyed with `k`, of the UTF-8 bytes of `p` followed by the
raw bytes of SHA-256 of the decimal rendering of `n` concatenated with
`b`. -/
theorem api_sign_composition (cl : Client) (c : Credentials) (k : List Nat)
    (p : String) (n : Nat) (b : String)
    (hc : cl.credentials = some c)
    (hk : base64Decode c.privateKey = some k) :
    apiSign cl p n b =
      Except.ok (base64Encode (hmacSha512 k
        (strBytes p ++ sha256 (strBytes (toString n ++ b))))) := by
  simp only [apiSign, hc, hk, hmacKeyLenInvalid, Bool.false_eq_true, if_false,
    headerValueValid_base64Encode, if_true]

/-- Witness for C1 at a concrete client: the stored key `AAAA` decodes to
three zero bytes and the signature is the stated composition. -/
theorem api_sign_composition_witness :
    (Client.mk (some ⟨"key", "AAAA"⟩) "agent").credentials = some ⟨"key", "AAAA"⟩ ∧
    base64Decode (Credentials.mk "key" "AAAA").privateKey = some [0, 0, 0] ∧
    apiSign (Client.mk (some ⟨"key", "AAAA"⟩) "agent") "/0/private/Balance" 1
        "nonce=1" =
      Except.ok (base64Encode (hmacSha512 [0, 0, 0]
        (strBytes "/0/private/Balance" ++
          sha256 (strBytes (toString 1 ++ "nonce=1"))))) :=
  ⟨rfl, by decide,
    api_sign_composition (Client.mk (some ⟨"key", "AAAA"⟩) "agent")
      ⟨"key", "AAAA"⟩ [0, 0, 0] "/0/private/Balance" 1 "nonce=1" rfl (by decide)⟩

/-- C9.  The signer is deterministic: it is a pure function of the
credentials, URI path, nonce and body, so any two clients agreeing on
their credentials (whatever their other state, here the User-Agent)
produce identical signature values on identical inputs. -/
theorem api_sign_deterministic (cl1 cl2 : Client) (p : String) (n : Nat)
    (b : String) (h : cl1.credentials = cl2.credentials) :
    apiSign cl1 p n b = apiSign cl2 p n b := by
  simp only [apiSign, h]

/-- Witness for C9: two clients differing in everything but credentials
sign identically. -/
theorem api_sign_deterministic_witness :
    (Client.mk (some ⟨"k", "AAAA"⟩) "agent one").credentials =
      (Client.mk (some ⟨"k", "AAAA"⟩) "agent two").credentials ∧
    apiSign (Client.mk (some ⟨"k", "AAAA"⟩) "agent one") "/0/private/Balance" 7
        "nonce=7" =
      apiSign (Client.mk (some ⟨"k", "AAAA"⟩) "agent two") "/0/private/Balance" 7
        "nonce=7" :=
  ⟨rfl,
    api_sign_deterministic (Client.mk (some ⟨"k", "AAAA"⟩) "agent one")
      (Client.mk (some ⟨"k", "AAAA"⟩) "agent two") "/0/private/Balance" 7
      "nonce=7" rfl⟩

/-- C6.  With credentials configured, if the stored private key fails to
Base64-decode, or the decoded key were of invalid length for the
HMAC-SHA-512 primitive (no length is: `Hmac` accepts all key lengths, so
that disjunct is vacuous), signing fails with an `InvalidKey` error and no
signature is produced. -/
theorem api_sign_invalid_key (cl : Client) (c : Credentials) (p : String)
    (n : Nat) (b : String)
    (hc : cl.credentials = some c)
    (h : base64Decode c.privateKey = none ∨
      ∃ k, base64Decode c.privateKey = some k ∧ hmacKeyLenInvalid k = true) :
    ∃ m, apiSign cl p n b = Except.error (Error.InvalidKey m) := by
  rcases h with hd | ⟨k, _, hlen⟩
  · exact ⟨"base64 decode error", by simp only [apiSign, hc, hd]⟩
  · rw [hmacKeyLenInvalid] at hlen
    exact absurd hlen (by decide)

/-- Witness for C6: a stored key `!!` is not Base64, and signing reports
`InvalidKey`. -/
theorem api_sign_invalid_key_witness :
    (Client.mk (some ⟨"k", "!!"⟩) "ua").credentials = some ⟨"k", "!!"⟩ ∧
    base64Decode (Credentials.mk "k" "!!").privateKey = none ∧
    (∃ m, apiSign (Client.mk (some ⟨"k", "!!"⟩) "ua") "/0/private/Balance" 1
      "nonce=1" = Except.error (Error.InvalidKey m)) :=
  ⟨rfl, by decide,
    api_sign_invalid_key (Client.mk (some ⟨"k", "!!"⟩) "ua") ⟨"k", "!!"⟩
      "/0/private/Balance" 1 "nonce=1" rfl (Or.inl (by decide))⟩

/-- C2, counterexample.  On a client with no credentials, a private
request does not fail with `Unauthorized`: `Client::post` only signs
inside its `if let Some(credentials)` branch, so the request is assembled
and sent unsigned.  Concretely, posting the private Balance API on a
credential-less client succeeds with no API-Key or API-Sign header. -/
theorem post_without_credentials_proceeds :
    (ApiBuilder.mk ApiKind.Private "https://api.kraken.com" "0" "private"
      "Balance" []).kind = ApiKind.Private ∧
    post (Client.mk none "ua")
        (ApiBuilder.mk ApiKind.Private "https://api.kraken.com" "0" "private"
          "Balance" []) 1 =
      Except.ok ⟨"https://api.kraken.com/0/private/Balance", none, none,
        some "nonce=1"⟩ ∧
    post (Client.mk none "ua")
        (ApiBuilder.mk ApiKind.Private "https://api.kraken.com" "0" "private"
          "Balance" []) 1 ≠ Except.error Error.Unauthorized := by
  refine ⟨rfl, by decide, by decide⟩

/-- C2, amended.  On a client with no credentials the signer itself —
`api_sign` — fails with `Unauthorized`; `post`, however, never invokes the
signer in that case: it assembles and sends the private request without
the API-Key and API-Sign headers rather than failing. -/
theorem unauthorized_signing_behaviour (cl : Client) (api : ApiBuilder)
    (p b : String) (n : Nat) (h : cl.credentials = none) :
    apiSign cl p n b = Except.error Error.Unauthorized ∧
    post cl api n =
      Except.ok ⟨api.url, none, none,
        some ((Body.withParams n api.params).urlencode)⟩ := by
  constructor
  · simp only [apiSign, h]
  · simp only [post, h]

/-- Witness for the amended C2 at a concrete credential-less client. -/
theorem unauthorized_signing_behaviour_witness :
    (Client.mk none "ua").credentials = none ∧
    apiSign (Client.mk none "ua") "/0/private/Balance" 1 "nonce=1" =
      Except.error Error.Unauthorized ∧
    post (Client.mk none "ua")
        (ApiBuilder.mk ApiKind.Private "https://api.kraken.com" "0" "private"
          "Balance" []) 1 =
      Except.ok
        ⟨(ApiBuilder.mk ApiKind.Private "https://api.kraken.com" "0" "private"
            "Balance" []).url, none, none,
          some ((Body.withParams 1
            (ApiBuilder.mk ApiKind.Private "https://api.kraken.com" "0"
              "private" "Balance" []).params).urlencode)⟩ :=
  ⟨rfl,
    (unauthorized_signing_behaviour (Client.mk none "ua")
      (ApiBuilder.mk ApiKind.Private "https://api.kraken.com" "0" "private"
        "Balance" []) "/0/private/Balance" "nonce=1" 1 rfl).1,
    (unauthorized_signing_behaviour (Client.mk none "ua")
      (ApiBuilder.mk ApiKind.Private "https://api.kraken.com" "0" "private"
        "Balance" []) "/0/private/Balance" "nonce=1" 1 rfl).2⟩

/-- C3.  `Response::is_success` is true exactly when the error list is
empty and the status code lies in the inclusive range 200..=299. -/
theorem is_success_iff (T : Type) (r : Response T) :
    r.isSuccess = true ↔
      r.error = [] ∧ 200 ≤ r.statusCode ∧ r.statusCode ≤ 299 := by
  rw [Response.isSuccess]
  simp only [Bool.and_eq_true, decide_eq_true_eq, List.isEmpty_iff]
  constructor
  · rintro ⟨⟨he, h200⟩, h300⟩
    exact ⟨he, h200, by omega⟩
  · rintro ⟨he, h200, h299⟩
    exact ⟨⟨he, h200⟩, by omega⟩

/-- C4, counterexample.  ADA is a crypto currency and CHF a fiat
currency, yet their pair name is the bare concatenation `ADACHF`: neither
an X nor a Z prefix appears anywhere in it, refuting that a crypto+fiat
pair always carries both single-letter prefixes. -/
theorem asset_pair_no_prefix_insertion :
    Asset.is_crypto Asset.ADA = true ∧
    Asset.is_fiat Asset.CHF = true ∧
    Asset.pair Asset.ADA Asset.CHF = "ADACHF" ∧
    (Asset.pair Asset.ADA Asset.CHF).data.head? = some 'A' ∧
    'X' ∉ (Asset.pair Asset.ADA Asset.CHF).data ∧
    'Z' ∉ (Asset.pair Asset.ADA Asset.CHF).data := by
  decide

/-- C4, amended.  `Asset::pair` performs no prefix logic at all: it is
the plain concatenation of the two assets' `Display` names, for every
combination of classifications.  Prefix letters occur in a pair name only
where they are already baked into the variant name (XXBT, ZEUR, ...);
assets stored without a prefix (ADA, CHF, ...) contribute their bare
code even in crypto+fiat pairs. -/
theorem asset_pair_is_display_concat (a b : Asset) :
    Asset.pair a b = a.display ++ b.display ∧
    (Asset.pair a b).data = a.display.data ++ b.display.data := by
  exact ⟨rfl, String.data_append a.display b.display⟩

/-- C5.  A credentials file of exactly two lines, each a well-formed
header value, parses into the API key (first line) and private key
(second line); a malformed file — fewer than two lines, or a line that is
not a valid header value — fails with an `InvalidKey` error. -/
theorem credentials_read_spec (content l1 l2 : String) :
    (rustLines content = [l1, l2] → headerValueValid l1 = true →
      headerValueValid l2 = true →
      Credentials.read content = Except.ok ⟨l1, l2⟩) ∧
    ((rustLines content).length < 2 →
      ∃ m, Credentials.read content = Except.error (Error.InvalidKey m)) ∧
    (rustLines content = [l1, l2] →
      (headerValueValid l1 = false ∨ headerValueValid l2 = false) →
      ∃ m, Credentials.read content = Except.error (Error.InvalidKey m)) := by
  refine ⟨?_, ?_, ?_⟩
  · intro h hv1 hv2
    simp [Credentials.read, h, optValidate, hv1, hv2]
  · intro hlen
    rcases hls : rustLines content with _ | ⟨a, _ | ⟨b, t⟩⟩
    · exact ⟨"key not found", by simp [Credentials.read, hls, optValidate]⟩
    · by_cases hv : headerValueValid a = true
      · exact ⟨"key not found",
        by simp [Credentials.read, hls, optValidate, hv]⟩
      · exact ⟨"failed to parse header value",
        by simp [Credentials.read, hls, optValidate, hv]⟩
    · rw [hls] at hlen
      simp only [List.length_cons] at hlen
      omega
  · intro h hv
    refine ⟨"failed to parse header value", ?_⟩
    rcases hv with hv1 | hv2
    · by_cases hv2v : headerValueValid l2 = true
      · simp [Credentials.read, h, optValidate, hv1, hv2v]
      · simp [Credentials.read, h, optValidate, hv2v]
    · simp [Credentials.read, h, optValidate, hv2]

/-- Witness for C5: the two-line content parses into its lines. -/
theorem credentials_read_spec_witness :
    rustLines "<api key>\n<private key>" = ["<api key>", "<private key>"] ∧
    headerValueValid "<api key>" = true ∧
    headerValueValid "<private key>" = true ∧
    Credentials.read "<api key>\n<private key>" =
      Except.ok ⟨"<api key>", "<private key>"⟩ :=
  ⟨by decide, by decide, by decide,
    (credentials_read_spec "<api key>\n<private key>" "<api key>"
      "<private key>").1 (by decide) (by decide) (by decide)⟩

/-- C7, counterexample.  The nonce is the wall-clock reading itself
(milliseconds, truncated to 64 bits), and `SystemTime` gives no
monotonicity guarantee: on the clock-reading sequence 1, 0 — a wall clock
stepped back one millisecond between two calls — the generated nonces are
1, 0, and the second regresses below the first. -/
theorem nonce_can_regress :
    nonceFromClock 1 = 1 ∧ nonceFromClock 0 = 0 ∧
    nonDecreasing (List.map nonceFromClock [1, 0]) = false := by
  decide

/-- C7, amended.  The nonce is the wall-clock milliseconds since the
epoch truncated to 64 bits, and every authenticated request body carries
`nonce={nonce}`; across a sequence of calls the nonces never regress
provided the wall-clock readings never regress and stay below `2 ^ 64`
milliseconds (the source clock is `SystemTime`, which may be stepped
backwards, in which case the nonce regresses with it). -/
theorem nonce_monotone_of_clock_monotone :
    (∀ ts : List Nat, nonDecreasing ts = true → (∀ t ∈ ts, t < 2 ^ 64) →
      nonDecreasing (ts.map nonceFromClock) = true) ∧
    (∀ (n : Nat) (params : List (String × String)), ∃ pre suf,
      Body.toStr (Body.withParams n params) =
        pre ++ ("nonce=" ++ toString n) ++ suf) := by
  constructor
  · intro ts
    induction ts with
    | nil => intro _ _; rfl
    | cons a rest ih =>
      cases rest with
      | nil => intro _ _; rfl
      | cons b t =>
        intro h hb
        have ha : a < 2 ^ 64 := hb a (by simp)
        have hbb : b < 2 ^ 64 := hb b (by simp)
        simp only [nonDecreasing, Bool.and_eq_true, decide_eq_true_eq] at h
        have hrec := ih h.2 (fun x hx => hb x (List.mem_cons_of_mem a hx))
        simp only [List.map_cons] at hrec ⊢
        simp only [nonDecreasing, Bool.and_eq_true, decide_eq_true_eq]
        refine ⟨?_, hrec⟩
        rw [nonceFromClock, nonceFromClock, Nat.mod_eq_of_lt ha,
          Nat.mod_eq_of_lt hbb]
        exact h.1
  · intro n params
    exact ⟨paramsConcat params, otpStr none, rfl⟩

/-- Witness for the amended C7 at a concrete monotone clock sequence. -/
theorem nonce_monotone_of_clock_monotone_witness :
    nonDecreasing [3, 5, 5] = true ∧
    (∀ t ∈ [3, 5, 5], t < 2 ^ 64) ∧
    nonDecreasing (List.map nonceFromClock [3, 5, 5]) = true :=
  ⟨by decide, by decide,
    nonce_monotone_of_clock_monotone.1 [3, 5, 5] (by decide) (by decide)⟩

/-- C8.  Request building by classification: a public API's URL is the
domain plus URI path with the accumulated parameters as a query string,
and its GET request carries no body; a private API's URL carries no query
string, while its POST body is the URL-encoded parameters together with
the nonce; parameter values are stored as given, passed through with no
validation. -/
theorem api_request_classification (bpub bpriv : ApiBuilder) (cl : Client)
    (n : Nat) (k v : String) (r : Request)
    (hpub : bpub.kind = ApiKind.Public)
    (hpriv : bpriv.kind = ApiKind.Private)
    (hr : post cl bpriv n = Except.ok r) :
    bpub.url = bpub.domain ++ bpub.uriPath ++
      (if bpub.params.isEmpty = true then "" else "?" ++ bpub.paramsStr) ∧
    (get cl bpub).body = none ∧
    bpriv.url = bpriv.domain ++ bpriv.uriPath ∧
    r.body = some ((Body.withParams n bpriv.params).urlencode) ∧
    (bpriv.withParam k v).params.lookup k = some v := by
  refine ⟨?_, rfl, ?_, ?_, ?_⟩
  · by_cases he : bpub.params.isEmpty = true
    · simp [ApiBuilder.url, hpub, he]
    · simp [ApiBuilder.url, hpub, he]
  · simp [ApiBuilder.url, hpriv]
  · rcases hcred : cl.credentials with _ | c
    · simp only [post, hcred] at hr
      rw [Except.ok.injEq] at hr
      rw [← hr]
    · simp only [post, hcred] at hr
      rcases hs : apiSign cl bpriv.uriPath n
          ((Body.withParams n bpriv.params).urlencode) with e | s
      · rw [hs] at hr
        exact absurd hr (by simp)
      · rw [hs] at hr
        rw [Except.ok.injEq] at hr
        rw [← hr]
  · simp [ApiBuilder.withParam, List.lookup]

/-- Witness for C8 at concrete public and private APIs. -/
theorem api_request_classification_witness :
    (ApiBuilder.mk ApiKind.Public "https://api.kraken.com" "0" "public" "Time"
      [("a", "1")]).kind = ApiKind.Public ∧
    (ApiBuilder.mk ApiKind.Private "https://api.kraken.com" "0" "private"
      "Balance" []).kind = ApiKind.Private ∧
    post (Client.mk none "ua")
        (ApiBuilder.mk ApiKind.Private "https://api.kraken.com" "0" "private"
          "Balance" []) 1 =
      Except.ok ⟨"https://api.kraken.com/0/private/Balance", none, none,
        some "nonce=1"⟩ ∧
    ((ApiBuilder.mk ApiKind.Public "https://api.kraken.com" "0" "public" "Time"
        [("a", "1")]).url =
      (ApiBuilder.mk ApiKind.Public "https://api.kraken.com" "0" "public" "Time"
        [("a", "1")]).domain ++
      (ApiBuilder.mk ApiKind.Public "https://api.kraken.com" "0" "public" "Time"
        [("a", "1")]).uriPath ++
      (if (ApiBuilder.mk ApiKind.Public "https://api.kraken.com" "0" "public"
          "Time" [("a", "1")]).params.isEmpty = true then ""
        else "?" ++ (ApiBuilder.mk ApiKind.Public "https://api.kraken.com" "0"
          "public" "Time" [("a", "1")]).paramsStr) ∧
      (get (Client.mk none "ua")
        (ApiBuilder.mk ApiKind.Public "https://api.kraken.com" "0" "public"
          "Time" [("a", "1")])).body = none ∧
      (ApiBuilder.mk ApiKind.Private "https://api.kraken.com" "0" "private"
        "Balance" []).url =
      (ApiBuilder.mk ApiKind.Private "https://api.kraken.com" "0" "private"
        "Balance" []).domain ++
      (ApiBuilder.mk ApiKind.Private "https://api.kraken.com" "0" "private"
        "Balance" []).uriPath ∧
      (Request.mk "https://api.kraken.com/0/private/Balance" none none
        (some "nonce=1")).body =
        some ((Body.withParams 1
          (ApiBuilder.mk ApiKind.Private "https://api.kraken.com" "0" "private"
            "Balance" []).params).urlencode) ∧
      ((ApiBuilder.mk ApiKind.Private "https://api.kraken.com" "0" "private"
        "Balance" []).withParam "pair" "XXBTZUSD").params.lookup "pair" =
        some "XXBTZUSD") :=
  ⟨rfl, rfl, by decide,
    api_request_classification
      (ApiBuilder.mk ApiKind.Public "https://api.kraken.com" "0" "public" "Time"
        [("a", "1")])
      (ApiBuilder.mk ApiKind.Private "https://api.kraken.com" "0" "private"
        "Balance" [])
      (Client.mk none "ua") 1 "pair" "XXBTZUSD"
      (Request.mk "https://api.kraken.com/0/private/Balance" none none
        (some "nonce=1"))
      rfl rfl (by decide)⟩

/-- C10.  The four classification predicates partition the asset type:
every asset satisfies exactly one of `is_crypto`, `is_fiat`,
`is_kraken_credit`, `is_unknown`, and `is_crypto` holds precisely when
none of the other three do. -/
theorem asset_classification_partition (a : Asset) :
    ((if a.is_crypto = true then 1 else 0) + (if a.is_fiat = true then 1 else 0)
      + (if a.is_kraken_credit = true then 1 else 0)
      + (if a.is_unknown = true then 1 else 0) = 1) ∧
    (a.is_crypto = true ↔
      ¬(a.is_fiat = true ∨ a.is_kraken_credit = true ∨ a.is_unknown = true)) := by
  cases a <;> exact (by decide)

end Kraken
